import Mathlib

/-!
Verification of the COMPOSE real-time collaboration core against its
specification.

The development shallowly embeds the three source files of the repository:

* `src/lib/components/CursorIndicator.svelte` — the cursor projection
  (`updateCursorPosition`), embedded as a pure function over the textarea
  metrics.  Pixel quantities (`getBoundingClientRect`, paddings, scroll
  offsets, line height, measured text widths) are modelled as integers: no
  step of the algorithm depends on fractional pixels.  JavaScript strings
  are modelled as `List Char`; DOM text measurement (the off-screen
  `offsetWidth` probe) is an external input and is passed in as an abstract
  width function `measure : List Char → ℤ`.
* `src/lib/utils/collaboration.ts` — presence fetching
  (`fetchActiveEditors`) and the broadcast-channel manager
  (`broadcastFieldUpdate`, `subscribeToFieldUpdates`,
  `subscribeToCollaboration`).  The Supabase storage queries are external
  calls; their results enter the model as `Except Unit`-valued parameters,
  and the select/filter/order query built by `fetchActiveEditors` is
  modelled by `queryCollaboration` over an explicit row table.  ISO-8601
  timestamps are ordered exactly as their epoch milliseconds
  (`new Date(s).getTime()`), so `last_seen` is modelled as an integer.
  JavaScript `Map`s are modelled as association lists with `Map.get`,
  `Map.set` (replace-in-place or append) and `Map.delete` semantics.
  Realtime channels are modelled by an id plus the `channel.state` values
  the code inspects; effects of a call are recorded as an event trace.
-/

/-! ### Association lists modelling the JavaScript `Map` -/

section AssocMap

variable {κ : Type} {α : Type} [DecidableEq κ]

/-- `Map.get`: value of the first (with unique keys, the only) entry for `k`. -/
def mapGet : List (κ × α) → κ → Option α
  | [], _ => none
  | p :: ps, k => if p.1 = k then some p.2 else mapGet ps k

/-- `Map.set`: replace the entry for `k` in place, or append a new one. -/
def mapSet : List (κ × α) → κ → α → List (κ × α)
  | [], k, v => [(k, v)]
  | p :: ps, k, v => if p.1 = k then (k, v) :: ps else p :: mapSet ps k v

/-- `Map.delete`: drop the entries for `k`. -/
def mapDel : List (κ × α) → κ → List (κ × α)
  | [], _ => []
  | p :: ps, k => if p.1 = k then mapDel ps k else p :: mapDel ps k

/-- The keys of an association list. -/
def mapKeys (m : List (κ × α)) : List κ := m.map Prod.fst

end AssocMap

/-! ### CursorIndicator.svelte — the cursor projection

`updateCursorPosition` (lines 23–111 of `CursorIndicator.svelte`) reads the
textarea's text and metrics and computes the fixed-position `{top, left}` of
the remote cursor overlay.  The metrics the code reads from the DOM are
gathered in `TextareaMetrics`; the two off-screen measurement probes are
modelled by the abstract `measure` width function (only the single-line
`whiteSpace: pre` probe's `offsetWidth` feeds the result; the `pre-wrap`
probe's rectangle is never used by the code). -/

/-- The DOM inputs of `updateCursorPosition`: `getBoundingClientRect()`
(`top`, `left`, `height`, `width`), computed style paddings and line height,
and the textarea scroll offsets.  Pixel values are modelled as integers. -/
structure TextareaMetrics where
  top : ℤ
  left : ℤ
  height : ℤ
  width : ℤ
  paddingTop : ℤ
  paddingLeft : ℤ
  lineHeight : ℤ
  scrollTop : ℤ
  scrollLeft : ℤ
  deriving DecidableEq, Repr

/-- The `{top, left}` result assigned to `cursorPosition`. -/
structure CursorPoint where
  top : ℤ
  left : ℤ
  deriving DecidableEq, Repr

/-- `Math.min(editor.cursor_position || 0, text.length)` (line 31). -/
def clampedCursorPos (cursorPosition : ℕ) (text : List Char) : ℕ :=
  min cursorPosition text.length

/-- `text.substring(0, cursorPos)` (lines 66 and 79). -/
def textBeforeCursor (text : List Char) (cursorPos : ℕ) : List Char :=
  text.take cursorPos

/-- `textBeforeCursor.split("\n")` (line 80). -/
def cursorLines (text : List Char) (cursorPos : ℕ) : List (List Char) :=
  List.splitOnP (· == '\n') (textBeforeCursor text cursorPos)

/-- `lines.length - 1` (line 81): the visual line index of the cursor. -/
def lineNumber (text : List Char) (cursorPos : ℕ) : ℕ :=
  (cursorLines text cursorPos).length - 1

/-- `lines[lines.length - 1] || ""` (line 83): the text on the cursor's own
line before the cursor. -/
def currentLineText (text : List Char) (cursorPos : ℕ) : List Char :=
  ((cursorLines text cursorPos).getLast?).getD []

/-- The body of `updateCursorPosition` once `cursorPos` is bound (lines
36–108): the empty-text early return, otherwise the line/width measurement,
the raw position, and the min/max clamping. -/
def renderCursorAt (measure : List Char → ℤ) (text : List Char)
    (cursorPos : ℕ) (m : TextareaMetrics) : CursorPoint :=
  if cursorPos = 0 ∧ text.length = 0 then
    { top := m.top + m.paddingTop + 2 - m.scrollTop
      left := m.left + m.paddingLeft - m.scrollLeft }
  else
    let lineWidth := measure (currentLineText text cursorPos)
    let topPosition :=
      m.top + m.paddingTop + (lineNumber text cursorPos : ℤ) * m.lineHeight + 2 - m.scrollTop
    let leftPosition := m.left + m.paddingLeft + lineWidth - m.scrollLeft
    let maxTop := m.top + m.height - m.scrollTop - m.lineHeight
    let minTop := m.top - m.scrollTop
    let maxLeft := m.left + m.width - m.scrollLeft
    let minLeft := m.left - m.scrollLeft
    { top := min (max topPosition minTop) maxTop
      left := min (max leftPosition minLeft) maxLeft }

/-- `updateCursorPosition`: clamp the remote offset to the local text length,
then render (lines 29–108 of `CursorIndicator.svelte`). -/
def updateCursorPosition (measure : List Char → ℤ) (text : List Char)
    (cursorPosition : ℕ) (m : TextareaMetrics) : CursorPoint :=
  renderCursorAt measure text (clampedCursorPos cursorPosition text) m

/-- A sample width metric for concrete test inputs: every character 10px. -/
def measureTenPerChar (s : List Char) : ℤ := 10 * s.length

/-- A sample metrics record for concrete test inputs. -/
def sampleMetrics : TextareaMetrics :=
  { top := 0, left := 0, height := 100, width := 500, paddingTop := 5,
    paddingLeft := 5, lineHeight := 20, scrollTop := 0, scrollLeft := 0 }

/-- A sample metrics record whose content box is exactly one line tall. -/
def shortMetrics : TextareaMetrics :=
  { top := 0, left := 0, height := 10, width := 100, paddingTop := 0,
    paddingLeft := 0, lineHeight := 10, scrollTop := 0, scrollLeft := 0 }

/-! ### collaboration.ts — presence rows and `fetchActiveEditors`

`fetchActiveEditors` (lines 61–124 of `collaboration.ts`) issues two
Supabase queries and merges their results.  The first query —
`select * ... eq(problem_id) ... gt(last_seen, now-30s) ... order(last_seen
desc)` — runs in the storage backend; `queryCollaboration` models its
semantics over an explicit table of rows.  Each query can fail; the code
only inspects the `error` field, so a query outcome is modelled as
`Except Unit`.  Timestamps are epoch milliseconds (ISO-8601 strings order
the same way), and `Date.now()` at fetch time is the parameter `now`. -/

/-- One row of the `problem_collaboration` table. -/
structure CollaborationRow where
  id : ℤ
  problem_id : ℤ
  user_id : String
  field_name : String
  cursor_position : ℤ
  selection_start : Option ℤ
  selection_end : Option ℤ
  last_seen : ℤ
  deriving DecidableEq, Repr

/-- One row of the `users` table, as selected by
`select("id, full_name, initials, email")`. -/
structure UserRow where
  id : String
  full_name : Option String
  initials : Option String
  email : Option String
  deriving DecidableEq, Repr

/-- The `CollaborationEditor` interface: a collaboration row spread together
with the (possibly null) `users` profile object. -/
structure CollaborationEditor where
  id : ℤ
  problem_id : ℤ
  user_id : String
  field_name : String
  cursor_position : ℤ
  selection_start : Option ℤ
  selection_end : Option ℤ
  last_seen : ℤ
  users : Option UserRow
  deriving DecidableEq, Repr

/-- `{...editor, users: u}`: spread a row into an editor record. -/
def toEditor (r : CollaborationRow) (u : Option UserRow) : CollaborationEditor :=
  { id := r.id, problem_id := r.problem_id, user_id := r.user_id,
    field_name := r.field_name, cursor_position := r.cursor_position,
    selection_start := r.selection_start, selection_end := r.selection_end,
    last_seen := r.last_seen, users := u }

/-- Descending `last_seen` order between two rows. -/
def lastSeenGE (a b : CollaborationRow) : Prop := b.last_seen ≤ a.last_seen

instance : DecidableRel lastSeenGE := fun a b =>
  inferInstanceAs (Decidable (b.last_seen ≤ a.last_seen))

instance : IsTotal CollaborationRow lastSeenGE :=
  ⟨fun a b => le_total b.last_seen a.last_seen⟩

instance : IsTrans CollaborationRow lastSeenGE :=
  ⟨fun _ _ _ h1 h2 => le_trans h2 h1⟩

/-- The storage query of lines 65–70: rows of the table with the given
`problem_id` and `last_seen` strictly newer than `now − 30000` ms, returned
in `last_seen` descending order. -/
def queryCollaboration (table : List CollaborationRow) (problemId now : ℤ) :
    List CollaborationRow :=
  List.insertionSort lastSeenGE
    (table.filter (fun r => r.problem_id = problemId ∧ now - 30000 < r.last_seen))

/-- `new Map((usersData || []).map(user => [user.id, user]))` (lines
100–102): build the user lookup map; later entries overwrite earlier ones. -/
def usersMapOf (usersData : List UserRow) : List (String × UserRow) :=
  usersData.foldl (fun m u => mapSet m u.id u) []

/-- `collaborationData.map(editor => ({...editor, users: usersMap.get(...) ||
null}))` (lines 105–109). -/
def editorsWithUsers (collaborationData : List CollaborationRow)
    (usersData : List UserRow) : List CollaborationEditor :=
  collaborationData.map (fun e => toEditor e (mapGet (usersMapOf usersData) e.user_id))

/-- One step of the `.reduce` of lines 110–121: store the editor under its
`user_id` if the key is absent, replace the cached entry only when the new
`last_seen` is strictly greater (`new Date(...).getTime() >` comparison). -/
def reduceStep (acc : List (String × CollaborationEditor))
    (editor : CollaborationEditor) : List (String × CollaborationEditor) :=
  match mapGet acc editor.user_id with
  | none => mapSet acc editor.user_id editor
  | some existing =>
      if existing.last_seen < editor.last_seen then
        mapSet acc editor.user_id editor
      else acc

/-- The `.reduce(..., new Map())` of lines 110–121: fold the editors into a
`Map` keyed by `user_id`. -/
def reduceEditors (l : List CollaborationEditor) :
    List (String × CollaborationEditor) :=
  l.foldl reduceStep []

/-- `fetchActiveEditors` after its two query outcomes are known (lines
72–123): on collaboration-query error return `[]`; on empty data return
`[]`; on users-query error return the rows with `users: null`; otherwise
join with the user map, collapse per user, and return the map's values. -/
def fetchActiveEditors (collabResult : Except Unit (List CollaborationRow))
    (usersResult : Except Unit (List UserRow)) : List CollaborationEditor :=
  match collabResult with
  | .error _ => []
  | .ok collaborationData =>
      if collaborationData.isEmpty then []
      else
        match usersResult with
        | .error _ => collaborationData.map (fun e => toEditor e none)
        | .ok usersData =>
            (reduceEditors (editorsWithUsers collaborationData usersData)).map Prod.snd

/-- `fetchActiveEditors` with the collaboration query modelled against an
explicit storage table at fetch time `now`. -/
def fetchActiveEditorsAt (table : List CollaborationRow) (problemId now : ℤ)
    (usersResult : Except Unit (List UserRow)) : List CollaborationEditor :=
  fetchActiveEditors (.ok (queryCollaboration table problemId now)) usersResult

/-- The effect of one `reduceStep` on the entry cached for one user: keep
the newcomer if the key was absent or strictly newer, else keep the cached
editor. -/
def pickLatest (a : Option CollaborationEditor) (e : CollaborationEditor) :
    Option CollaborationEditor :=
  match a with
  | none => some e
  | some existing =>
      if existing.last_seen < e.last_seen then some e else some existing

/-! ### collaboration.ts — the broadcast channel manager

`broadcastFieldUpdate` (lines 212–261), `subscribeToFieldUpdates` (lines
266–310) and the module-level cache `broadcastChannels` (line 196).  A
realtime channel is modelled by an identity and the `channel.state` string
the code inspects; the effects of a call (channel removal, creation,
subscription, caching, the settle delay, the send) are recorded as an event
trace in source order.  The `timestamp: new Date().toISOString()` of the
sent payload is the injected fetch-time parameter in epoch milliseconds. -/

/-- The `channel.state` values the code compares against. -/
inductive ChannelState where
  | closed
  | errored
  | joined
  | joining
  | subscribed
  deriving DecidableEq, Repr

/-- A realtime channel: an identity (creation counter) plus its state. -/
structure Channel where
  id : ℕ
  state : ChannelState
  deriving DecidableEq, Repr

/-- The `FieldUpdate` payload `{field_name, content, user_id, timestamp}`. -/
structure FieldUpdate where
  field_name : String
  content : String
  user_id : String
  timestamp : ℤ
  deriving DecidableEq, Repr

/-- The content-broadcast channel name `` `problem:${problemId}:updates` ``
(lines 232 and 294). -/
def broadcastChannelName (problemId : ℤ) : String :=
  "problem:" ++ toString problemId ++ ":updates"

/-- The presence channel name `` `problem:${problemId}` `` (line 38). -/
def presenceChannelName (problemId : ℤ) : String :=
  "problem:" ++ toString problemId

/-- The channel opened by `subscribeToCollaboration` (lines 30–56): its
name and the `postgres_changes` listener parameters. -/
structure PresenceSubscription where
  channelName : String
  event : String
  schema : String
  table : String
  filter : String
  deriving DecidableEq, Repr

/-- `subscribeToCollaboration` (lines 30–56). -/
def subscribeToCollaboration (problemId : ℤ) : PresenceSubscription :=
  { channelName := presenceChannelName problemId
    event := "*"
    schema := "public"
    table := "problem_collaboration"
    filter := "problem_id=eq." ++ toString problemId }

/-- The module-level `broadcastChannels` map plus a creation counter giving
fresh channel identities. -/
structure BroadcastEnv where
  cache : List (ℤ × Channel)
  nextId : ℕ
  deriving DecidableEq, Repr

/-- The observable effects of a broadcast-manager call, in source order. -/
inductive BEvent where
  | removedChannel (c : Channel)
  | createdChannel (c : Channel) (channelName : String)
  | subscribedChannel (c : Channel)
  | cachedChannel (problemId : ℤ) (c : Channel)
  | settleWait
  | sent (c : Channel) (event : String) (payload : FieldUpdate)
  | listenerAttached (c : Channel) (event : String)
  deriving DecidableEq, Repr

/-- `broadcastFieldUpdate` (lines 212–261).  The cached channel for the
problem is looked up; if it is absent, `closed` or `errored`, the stale
entry is evicted and a fresh channel is created, subscribed, cached, and the
100ms settle delay is awaited; if it is cached but neither `joined` nor
`subscribed`, only the settle delay is awaited; then the payload is sent
with event `field_update`.  A freshly subscribed channel is modelled with
state `joined`. -/
def broadcastFieldUpdate (env : BroadcastEnv) (problemId : ℤ)
    (fieldName content userId : String) (nowTs : ℤ) :
    BroadcastEnv × List BEvent :=
  let payload : FieldUpdate :=
    { field_name := fieldName, content := content, user_id := userId,
      timestamp := nowTs }
  match mapGet env.cache problemId with
  | none =>
      let fresh : Channel := { id := env.nextId, state := .joined }
      ({ cache := mapSet env.cache problemId fresh, nextId := env.nextId + 1 },
        [.createdChannel fresh (broadcastChannelName problemId),
         .subscribedChannel fresh, .cachedChannel problemId fresh,
         .settleWait, .sent fresh "field_update" payload])
  | some channel =>
      if channel.state = .closed ∨ channel.state = .errored then
        let fresh : Channel := { id := env.nextId, state := .joined }
        ({ cache := mapSet (mapDel env.cache problemId) problemId fresh,
           nextId := env.nextId + 1 },
          [.removedChannel channel,
           .createdChannel fresh (broadcastChannelName problemId),
           .subscribedChannel fresh, .cachedChannel problemId fresh,
           .settleWait, .sent fresh "field_update" payload])
      else if channel.state ≠ .joined ∧ channel.state ≠ .subscribed then
        (env, [.settleWait, .sent channel "field_update" payload])
      else
        (env, [.sent channel "field_update" payload])

/-- `subscribeToFieldUpdates` (lines 266–310).  A cached `joined`,
`subscribed` or `joining` channel just gets one more listener; a cached
`closed` or `errored` channel is evicted first; if no usable channel
remains, a fresh one is created and cached, and the listener is attached
before `subscribe()` is issued. -/
def subscribeToFieldUpdates (env : BroadcastEnv) (problemId : ℤ) :
    BroadcastEnv × List BEvent :=
  match mapGet env.cache problemId with
  | some channel =>
      if channel.state = .joined ∨ channel.state = .subscribed ∨
          channel.state = .joining then
        (env, [.listenerAttached channel "field_update"])
      else if channel.state = .closed ∨ channel.state = .errored then
        let fresh : Channel := { id := env.nextId, state := .joining }
        ({ cache := mapSet (mapDel env.cache problemId) problemId fresh,
           nextId := env.nextId + 1 },
          [.removedChannel channel,
           .createdChannel fresh (broadcastChannelName problemId),
           .cachedChannel problemId fresh,
           .listenerAttached fresh "field_update",
           .subscribedChannel fresh])
      else
        (env, [.listenerAttached channel "field_update",
               .subscribedChannel channel])
  | none =>
      let fresh : Channel := { id := env.nextId, state := .joining }
      ({ cache := mapSet env.cache problemId fresh, nextId := env.nextId + 1 },
        [.createdChannel fresh (broadcastChannelName problemId),
         .cachedChannel problemId fresh,
         .listenerAttached fresh "field_update",
         .subscribedChannel fresh])

/-! ### The broadcast creation race

`broadcastFieldUpdate` is an `async` function: it suspends at
`await channel.subscribe()` (line 233) — after which it caches the channel
(line 234) — and at the two `await setTimeout` settle delays (lines 237 and
240) before `await channel.send(...)` (line 244).  On the single-threaded
event loop another call can interleave at exactly these suspension points.
`raceCallStep` is `broadcastFieldUpdate` cut at its `await`s: each
constructor of `RaceCallPhase` is one continuation, and each step runs the
synchronous code up to the next `await`. -/

/-- The shared state seen by concurrently running broadcast calls: the
module-level channel cache and creation counter, plus logs of channels
created and sends performed. -/
structure RaceState where
  cache : List (ℤ × Channel)
  nextId : ℕ
  created : List Channel
  sent : List (Channel × FieldUpdate)
  deriving DecidableEq, Repr

/-- The continuation of one in-flight `broadcastFieldUpdate` call. -/
inductive RaceCallPhase where
  | start
  | subscribing (fresh : Channel)
  | settling (ch : Channel)
  | done (ch : Channel)
  deriving DecidableEq, Repr

/-- One synchronous segment of `broadcastFieldUpdate` for one call:
`start` runs the cache lookup, the staleness check, eviction and channel
creation up to `await channel.subscribe()`; `subscribing` resumes after the
subscribe and runs `broadcastChannels.set` up to the settle `await`;
`settling` resumes after the delay and performs the send. -/
def raceCallStep (problemId : ℤ) (msg : FieldUpdate) (s : RaceState) :
    RaceCallPhase → RaceState × RaceCallPhase
  | .start =>
      match mapGet s.cache problemId with
      | none =>
          let fresh : Channel := { id := s.nextId, state := .joined }
          ({ s with nextId := s.nextId + 1, created := s.created ++ [fresh] },
            .subscribing fresh)
      | some channel =>
          if channel.state = .closed ∨ channel.state = .errored then
            let fresh : Channel := { id := s.nextId, state := .joined }
            ({ s with
                cache := mapDel s.cache problemId
                nextId := s.nextId + 1
                created := s.created ++ [fresh] },
              .subscribing fresh)
          else if channel.state ≠ .joined ∧ channel.state ≠ .subscribed then
            (s, .settling channel)
          else
            ({ s with sent := s.sent ++ [(channel, msg)] }, .done channel)
  | .subscribing fresh =>
      ({ s with cache := mapSet s.cache problemId fresh }, .settling fresh)
  | .settling ch =>
      ({ s with sent := s.sent ++ [(ch, msg)] }, .done ch)
  | .done ch => (s, .done ch)

/-- Two broadcast calls A and B for the same problem interleaved as
A.start, B.start, A.subscribe-resume, B.subscribe-resume, A.send, B.send:
both calls observe the cache before either caches, which is a legal
schedule of the event loop. -/
def raceRun (problemId : ℤ) (msgA msgB : FieldUpdate) :
    RaceState × RaceCallPhase × RaceCallPhase :=
  let s0 : RaceState := { cache := [], nextId := 0, created := [], sent := [] }
  let a1 := raceCallStep problemId msgA s0 .start
  let b1 := raceCallStep problemId msgB a1.1 .start
  let a2 := raceCallStep problemId msgA b1.1 a1.2
  let b2 := raceCallStep problemId msgB a2.1 b1.2
  let a3 := raceCallStep problemId msgA b2.1 a2.2
  let b3 := raceCallStep problemId msgB a3.1 b2.2
  (b3.1, a3.2, b3.2)

/-! ### Lemmas and claim theorems -/

section AssocMapLemmas

variable {κ : Type} {α : Type} [DecidableEq κ]

theorem mapGet_mapSet_self (m : List (κ × α)) (k : κ) (v : α) :
    mapGet (mapSet m k v) k = some v := by
  induction m with
  | nil => simp [mapGet, mapSet]
  | cons p ps ih =>
      by_cases h : p.1 = k
      · simp [mapGet, mapSet, h]
      · simp [mapGet, mapSet, h, ih]

theorem mapGet_mapSet_ne (m : List (κ × α)) {k k' : κ} (v : α) (h : k' ≠ k) :
    mapGet (mapSet m k v) k' = mapGet m k' := by
  induction m with
  | nil => simp [mapGet, mapSet, Ne.symm h]
  | cons p ps ih =>
      by_cases hp : p.1 = k
      · simp [mapGet, mapSet, hp, Ne.symm h]
      · simp [mapGet, mapSet, hp, ih]

theorem mem_mapSet (m : List (κ × α)) (k : κ) (v : α) (q : κ × α) :
    q ∈ mapSet m k v → q = (k, v) ∨ q ∈ m := by
  induction m with
  | nil =>
      intro h
      simpa [mapSet] using h
  | cons p ps ih =>
      intro h
      by_cases hp : p.1 = k
      · rcases (by simpa [mapSet, hp] using h : q = (k, v) ∨ q ∈ ps) with h1 | h1
        · exact Or.inl h1
        · exact Or.inr (List.mem_cons_of_mem _ h1)
      · rcases (by simpa [mapSet, hp] using h : q = p ∨ q ∈ mapSet ps k v) with h1 | h1
        · exact Or.inr (List.mem_cons.mpr (Or.inl h1))
        · rcases ih h1 with h2 | h2
          · exact Or.inl h2
          · exact Or.inr (List.mem_cons_of_mem _ h2)

theorem mem_mapKeys_mapSet (m : List (κ × α)) (k : κ) (v : α) (x : κ) :
    x ∈ mapKeys (mapSet m k v) → x = k ∨ x ∈ mapKeys m := by
  intro h
  rcases List.mem_map.mp h with ⟨q, hq, hx⟩
  rcases mem_mapSet m k v q hq with h1 | h1
  · exact Or.inl (by rw [← hx, h1])
  · exact Or.inr (List.mem_map.mpr ⟨q, h1, hx⟩)

theorem nodup_mapKeys_mapSet (m : List (κ × α)) (k : κ) (v : α) :
    (mapKeys m).Nodup → (mapKeys (mapSet m k v)).Nodup := by
  induction m with
  | nil =>
      intro _
      simp [mapSet, mapKeys]
  | cons p ps ih =>
      intro h
      have hsplit := List.nodup_cons.mp (show (p.1 :: mapKeys ps).Nodup from h)
      have h1 : p.1 ∉ mapKeys ps := hsplit.1
      have h2 : (mapKeys ps).Nodup := hsplit.2
      by_cases hp : p.1 = k
      · have hres : (mapKeys ((k, v) :: ps)).Nodup :=
          show (k :: mapKeys ps).Nodup from List.nodup_cons.mpr ⟨hp ▸ h1, h2⟩
        simpa [mapSet, hp] using hres
      · have hmem : p.1 ∉ mapKeys (mapSet ps k v) := by
          intro hc
          rcases mem_mapKeys_mapSet ps k v p.1 hc with hc1 | hc1
          · exact hp hc1
          · exact h1 hc1
        have hres : (mapKeys (p :: mapSet ps k v)).Nodup :=
          show (p.1 :: mapKeys (mapSet ps k v)).Nodup from
            List.nodup_cons.mpr ⟨hmem, ih h2⟩
        simpa [mapSet, hp] using hres

theorem mapGet_mem (m : List (κ × α)) (k : κ) (v : α) :
    mapGet m k = some v → (k, v) ∈ m := by
  induction m with
  | nil =>
      intro h
      simp [mapGet] at h
  | cons p ps ih =>
      intro h
      by_cases hp : p.1 = k
      · have hv : p.2 = v := by simpa [mapGet, hp] using h
        have hpv : (k, v) = p := by
          cases p with
          | mk a b =>
              cases hp
              cases hv
              rfl
        exact List.mem_cons.mpr (Or.inl hpv)
      · exact List.mem_cons_of_mem _ (ih (by simpa [mapGet, hp] using h))

theorem mapGet_of_mem_nodup (m : List (κ × α)) (k : κ) (v : α) :
    (k, v) ∈ m → (mapKeys m).Nodup → mapGet m k = some v := by
  induction m with
  | nil =>
      intro hmem _
      simp at hmem
  | cons p ps ih =>
      intro hmem hnd
      have hsplit := List.nodup_cons.mp (show (p.1 :: mapKeys ps).Nodup from hnd)
      have h1 : p.1 ∉ mapKeys ps := hsplit.1
      have h2 : (mapKeys ps).Nodup := hsplit.2
      rcases List.mem_cons.mp hmem with hq | hq
      · simp [mapGet, ← hq]
      · have hk : k ∈ mapKeys ps := List.mem_map.mpr ⟨(k, v), hq, rfl⟩
        have hp : p.1 ≠ k := by
          intro hh
          exact h1 (hh ▸ hk)
        simp only [mapGet, hp, if_false]
        exact ih hq h2

end AssocMapLemmas

/-- C7: on empty text every cursor offset takes the early-return branch:
`cursorPos = min(offset, 0) = 0`, so the result is the padded top-left
corner adjusted by scroll. -/
theorem empty_text_returns_padded_corner (measure : List Char → ℤ)
    (cursorPosition : ℕ) (m : TextareaMetrics) :
    updateCursorPosition measure [] cursorPosition m =
      { top := m.top + m.paddingTop + 2 - m.scrollTop
        left := m.left + m.paddingLeft - m.scrollLeft } := by
  simp [updateCursorPosition, clampedCursorPos, renderCursorAt]

/-- On the non-empty branch `renderCursorAt` is the clamped raw position
computed from the line index and the measured width of the cursor's own
line. -/
theorem renderCursorAt_of_ne (measure : List Char → ℤ) (text : List Char)
    (cursorPos : ℕ) (m : TextareaMetrics)
    (h : ¬(cursorPos = 0 ∧ text.length = 0)) :
    renderCursorAt measure text cursorPos m =
      { top := min (max (m.top + m.paddingTop +
            (lineNumber text cursorPos : ℤ) * m.lineHeight + 2 - m.scrollTop)
            (m.top - m.scrollTop)) (m.top + m.height - m.scrollTop - m.lineHeight)
        left := min (max (m.left + m.paddingLeft +
            measure (currentLineText text cursorPos) - m.scrollLeft)
            (m.left - m.scrollLeft)) (m.left + m.width - m.scrollLeft) } := by
  unfold renderCursorAt
  rw [if_neg h]

/-- C5 counterexample: `text.substring(0, 4)` of `"ab\ncd"` is `"ab\nc"`,
whose last segment is `"c"`, not `"cd"`.  With a 10px-per-character metric
the horizontal offset from the padded left edge is the width of `"c"`
(10px), not the width of `"cd"` (20px). -/
theorem cursor_projection_width_is_c_not_cd :
    updateCursorPosition measureTenPerChar ("ab\ncd".data) 4 sampleMetrics =
      { top := 27, left := 15 }
    ∧ measureTenPerChar ("cd".data) = 20
    ∧ ¬ ((15 : ℤ) -
          (sampleMetrics.left + sampleMetrics.paddingLeft - sampleMetrics.scrollLeft) =
         measureTenPerChar ("cd".data)) := by
  decide

/-- C5 (amended): `project("ab\ncd", 4, box)` places the caret on visual
line index 1 with horizontal offset from the padded left edge equal to the
measured width of `"c"` — the text before the cursor on the cursor's own
line — whenever the raw horizontal position is inside the clamping range. -/
theorem cursor_projection_line_and_width (measure : List Char → ℤ)
    (m : TextareaMetrics)
    (h1 : m.left - m.scrollLeft ≤
        m.left + m.paddingLeft + measure ("c".data) - m.scrollLeft)
    (h2 : m.left + m.paddingLeft + measure ("c".data) - m.scrollLeft ≤
        m.left + m.width - m.scrollLeft) :
    lineNumber ("ab\ncd".data) 4 = 1
    ∧ (updateCursorPosition measure ("ab\ncd".data) 4 m).left =
        m.left + m.paddingLeft + measure ("c".data) - m.scrollLeft := by
  constructor
  · decide
  · have hstep : updateCursorPosition measure ("ab\ncd".data) 4 m =
        renderCursorAt measure ("ab\ncd".data) 4 m := rfl
    rw [hstep, renderCursorAt_of_ne _ _ _ _ (by decide)]
    have hcur : currentLineText ("ab\ncd".data) 4 = "c".data := by decide
    rw [hcur]
    exact (min_eq_left ((max_eq_left h1).symm ▸ h2)).trans (max_eq_left h1)

/-- Witness for `cursor_projection_line_and_width` at the sample metric. -/
theorem cursor_projection_line_and_width_witness :
    lineNumber ("ab\ncd".data) 4 = 1
    ∧ (updateCursorPosition measureTenPerChar ("ab\ncd".data) 4 sampleMetrics).left =
        sampleMetrics.left + sampleMetrics.paddingLeft +
          measureTenPerChar ("c".data) - sampleMetrics.scrollLeft :=
  cursor_projection_line_and_width measureTenPerChar sampleMetrics
    (by decide) (by decide)

/-- C6 counterexample: the empty-text branch returns the padded corner
*without* clamping.  On a box whose content height equals its line height
(so the claimed vertical range is the single point `top − scrollTop`), the
returned top is `top + paddingTop + 2 − scrollTop = 2`, which lies outside
the claimed range `[0, 0]`. -/
theorem projection_unclamped_on_empty_text :
    (updateCursorPosition measureTenPerChar [] 0 shortMetrics).top = 2
    ∧ shortMetrics.top - shortMetrics.scrollTop = 0
    ∧ shortMetrics.top + shortMetrics.height - shortMetrics.scrollTop -
        shortMetrics.lineHeight = 0
    ∧ ¬ ((updateCursorPosition measureTenPerChar [] 0 shortMetrics).top ≤
          shortMetrics.top + shortMetrics.height - shortMetrics.scrollTop -
            shortMetrics.lineHeight) := by
  decide

/-- C6 (amended): for every input with non-empty text, a line height no
larger than the box height and a non-negative box width, the projection
output is clamped to the box: top lies in
`[top − scrollTop, top + height − scrollTop − lineHeight]` and left lies in
`[left − scrollLeft, left + width − scrollLeft]`, even when the raw
position falls outside those ranges.  (The empty-text branch returns the
padded corner unclamped.) -/
theorem projection_clamped_on_nonempty_text (measure : List Char → ℤ)
    (text : List Char) (cursorPosition : ℕ) (m : TextareaMetrics)
    (htext : text ≠ []) (hlh : m.lineHeight ≤ m.height) (hw : 0 ≤ m.width) :
    m.top - m.scrollTop ≤ (updateCursorPosition measure text cursorPosition m).top
    ∧ (updateCursorPosition measure text cursorPosition m).top ≤
        m.top + m.height - m.scrollTop - m.lineHeight
    ∧ m.left - m.scrollLeft ≤ (updateCursorPosition measure text cursorPosition m).left
    ∧ (updateCursorPosition measure text cursorPosition m).left ≤
        m.left + m.width - m.scrollLeft := by
  have hne : ¬(clampedCursorPos cursorPosition text = 0 ∧ text.length = 0) :=
    fun hc => htext (List.length_eq_zero.mp hc.2)
  have hstep : updateCursorPosition measure text cursorPosition m =
      renderCursorAt measure text (clampedCursorPos cursorPosition text) m := rfl
  rw [hstep, renderCursorAt_of_ne _ _ _ _ hne]
  refine ⟨le_min (le_max_right _ _) (by linarith), min_le_right _ _,
          le_min (le_max_right _ _) (by linarith), min_le_right _ _⟩

/-- Witness for `projection_clamped_on_nonempty_text` on one-character
text. -/
theorem projection_clamped_on_nonempty_text_witness :
    sampleMetrics.top - sampleMetrics.scrollTop ≤
        (updateCursorPosition measureTenPerChar ("a".data) 1 sampleMetrics).top
    ∧ (updateCursorPosition measureTenPerChar ("a".data) 1 sampleMetrics).top ≤
        sampleMetrics.top + sampleMetrics.height - sampleMetrics.scrollTop -
          sampleMetrics.lineHeight
    ∧ sampleMetrics.left - sampleMetrics.scrollLeft ≤
        (updateCursorPosition measureTenPerChar ("a".data) 1 sampleMetrics).left
    ∧ (updateCursorPosition measureTenPerChar ("a".data) 1 sampleMetrics).left ≤
        sampleMetrics.left + sampleMetrics.width - sampleMetrics.scrollLeft :=
  projection_clamped_on_nonempty_text measureTenPerChar ("a".data) 1
    sampleMetrics (by decide) (by decide) (by decide)

/-- C10: the remote cursor offset is clamped to the local text length
before any measurement — `cursorPos = min(offset, text.length)` — so a
stale offset beyond the end of the text is projected exactly as an offset
at the end of the text. -/
theorem stale_offset_projected_at_text_end (measure : List Char → ℤ)
    (text : List Char) (cursorPosition : ℕ) (m : TextareaMetrics)
    (h : text.length ≤ cursorPosition) :
    clampedCursorPos cursorPosition text = text.length
    ∧ updateCursorPosition measure text cursorPosition m =
        updateCursorPosition measure text text.length m := by
  have hcl : clampedCursorPos cursorPosition text = text.length :=
    Nat.min_eq_right h
  refine ⟨hcl, ?_⟩
  unfold updateCursorPosition
  rw [hcl]
  rw [show clampedCursorPos text.length text = text.length from Nat.min_self _]

/-- Witness for `stale_offset_projected_at_text_end`: offset 5 into the
two-character text `"ab"`. -/
theorem stale_offset_projected_at_text_end_witness :
    clampedCursorPos 5 ("ab".data) = ("ab".data).length
    ∧ updateCursorPosition measureTenPerChar ("ab".data) 5 sampleMetrics =
        updateCursorPosition measureTenPerChar ("ab".data) ("ab".data).length
          sampleMetrics :=
  stale_offset_projected_at_text_end measureTenPerChar ("ab".data) 5
    sampleMetrics (by decide)

theorem mapGet_foldl_reduceStep (l : List CollaborationEditor) :
    ∀ (acc : List (String × CollaborationEditor)) (u : String),
      mapGet (l.foldl reduceStep acc) u =
        (l.filter (fun e => e.user_id = u)).foldl pickLatest (mapGet acc u) := by
  induction l with
  | nil =>
      intro acc u
      rfl
  | cons e l ih =>
      intro acc u
      by_cases hu : e.user_id = u
      · subst hu
        have hget : mapGet (reduceStep acc e) e.user_id =
            pickLatest (mapGet acc e.user_id) e := by
          cases hacc : mapGet acc e.user_id with
          | none => simp [reduceStep, pickLatest, hacc, mapGet_mapSet_self]
          | some existing =>
              by_cases hlt : existing.last_seen < e.last_seen
              · simp [reduceStep, pickLatest, hacc, hlt, mapGet_mapSet_self]
              · simp [reduceStep, pickLatest, hacc, hlt]
        simp [List.foldl_cons, List.filter_cons, ih, hget]
      · have hget : mapGet (reduceStep acc e) u = mapGet acc u := by
          have hne : u ≠ e.user_id := fun hh => hu hh.symm
          cases hacc : mapGet acc e.user_id with
          | none => simp [reduceStep, hacc, mapGet_mapSet_ne _ _ hne]
          | some existing =>
              by_cases hlt : existing.last_seen < e.last_seen
              · simp [reduceStep, hacc, hlt, mapGet_mapSet_ne _ _ hne]
              · simp [reduceStep, hacc, hlt]
        simp [List.foldl_cons, List.filter_cons, hu, ih, hget]

theorem key_eq_userId_of_mem_reduce (l : List CollaborationEditor) :
    ∀ (acc : List (String × CollaborationEditor)),
      (∀ p ∈ acc, p.1 = p.2.user_id) →
      ∀ p ∈ l.foldl reduceStep acc, p.1 = p.2.user_id := by
  induction l with
  | nil =>
      intro acc hacc p hp
      exact hacc p hp
  | cons e l ih =>
      intro acc hacc p hp
      refine ih (reduceStep acc e) ?_ p hp
      intro q hq
      cases hacc' : mapGet acc e.user_id with
      | none =>
          rcases mem_mapSet acc e.user_id e q
              (by simpa [reduceStep, hacc'] using hq) with h1 | h1
          · rw [h1]
          · exact hacc q h1
      | some existing =>
          by_cases hlt : existing.last_seen < e.last_seen
          · rcases mem_mapSet acc e.user_id e q
                (by simpa [reduceStep, hacc', hlt] using hq) with h1 | h1
            · rw [h1]
            · exact hacc q h1
          · exact hacc q (by simpa [reduceStep, hacc', hlt] using hq)

theorem nodup_keys_foldl_reduceStep (l : List CollaborationEditor) :
    ∀ (acc : List (String × CollaborationEditor)),
      (mapKeys acc).Nodup → (mapKeys (l.foldl reduceStep acc)).Nodup := by
  induction l with
  | nil =>
      intro acc hacc
      exact hacc
  | cons e l ih =>
      intro acc hacc
      refine ih (reduceStep acc e) ?_
      cases hacc' : mapGet acc e.user_id with
      | none => simpa [reduceStep, hacc'] using nodup_mapKeys_mapSet acc e.user_id e hacc
      | some existing =>
          by_cases hlt : existing.last_seen < e.last_seen
          · simpa [reduceStep, hacc', hlt] using nodup_mapKeys_mapSet acc e.user_id e hacc
          · simpa [reduceStep, hacc', hlt] using hacc

theorem mem_of_mem_foldl_reduceStep (l : List CollaborationEditor) :
    ∀ (acc : List (String × CollaborationEditor)) (p : String × CollaborationEditor),
      p ∈ l.foldl reduceStep acc → p ∈ acc ∨ p.2 ∈ l := by
  induction l with
  | nil =>
      intro acc p hp
      exact Or.inl hp
  | cons e l ih =>
      intro acc p hp
      rcases ih (reduceStep acc e) p hp with h1 | h1
      · cases hacc : mapGet acc e.user_id with
        | none =>
            rcases mem_mapSet acc e.user_id e p
                (by simpa [reduceStep, hacc] using h1) with h2 | h2
            · exact Or.inr (by rw [h2]; exact List.mem_cons_self _ _)
            · exact Or.inl h2
        | some existing =>
            by_cases hlt : existing.last_seen < e.last_seen
            · rcases mem_mapSet acc e.user_id e p
                  (by simpa [reduceStep, hacc, hlt] using h1) with h2 | h2
              · exact Or.inr (by rw [h2]; exact List.mem_cons_self _ _)
              · exact Or.inl h2
            · exact Or.inl (by simpa [reduceStep, hacc, hlt] using h1)
      · exact Or.inr (List.mem_cons_of_mem _ h1)

theorem mem_queryCollaboration (table : List CollaborationRow)
    (problemId now : ℤ) (r : CollaborationRow) :
    r ∈ queryCollaboration table problemId now →
      r.problem_id = problemId ∧ now - 30000 < r.last_seen ∧ r ∈ table := by
  intro hr
  have hperm := List.perm_insertionSort lastSeenGE
    (table.filter (fun r => r.problem_id = problemId ∧ now - 30000 < r.last_seen))
  have hmem : r ∈ table.filter
      (fun r => r.problem_id = problemId ∧ now - 30000 < r.last_seen) :=
    hperm.mem_iff.mp (by simpa [queryCollaboration] using hr)
  have h := List.mem_filter.mp hmem
  have hps : r.problem_id = problemId ∧ now - 30000 < r.last_seen := by
    simpa using h.2
  exact ⟨hps.1, hps.2, h.1⟩

/-- Every editor returned by `fetchActiveEditors` carries the `last_seen` of
one of the collaboration rows the query returned. -/
theorem last_seen_of_mem_fetch (collaborationData : List CollaborationRow)
    (usersResult : Except Unit (List UserRow)) (e : CollaborationEditor) :
    e ∈ fetchActiveEditors (.ok collaborationData) usersResult →
      ∃ r ∈ collaborationData, e.last_seen = r.last_seen := by
  intro he
  by_cases hemp : collaborationData.isEmpty
  · simp [fetchActiveEditors, hemp] at he
  · cases usersResult with
    | error u =>
        simp only [fetchActiveEditors, hemp, if_false, Bool.false_eq_true] at he
        rcases List.mem_map.mp he with ⟨r, hr, hre⟩
        exact ⟨r, hr, by rw [← hre]; exact rfl⟩
    | ok usersData =>
        simp only [fetchActiveEditors, hemp, if_false, Bool.false_eq_true] at he
        rcases List.mem_map.mp he with ⟨p, hp, hpe⟩
        rcases mem_of_mem_foldl_reduceStep
            (editorsWithUsers collaborationData usersData) [] p
            (by simpa [reduceEditors] using hp) with h1 | h1
        · simp at h1
        · rcases List.mem_map.mp h1 with ⟨r, hr, hre⟩
          exact ⟨r, hr, by rw [← hpe, ← hre]; exact rfl⟩

/-- C2: every presence row older than 30 seconds relative to the fetch time
is excluded from the returned active roster — every returned editor has
`last_seen` strictly newer than `now − 30000` — and the rows considered are
taken in `last_seen` descending order. -/
theorem stale_rows_excluded_and_rows_desc :
    (∀ (table : List CollaborationRow) (problemId now : ℤ)
        (usersResult : Except Unit (List UserRow)) (e : CollaborationEditor),
        e ∈ fetchActiveEditorsAt table problemId now usersResult →
          now - 30000 < e.last_seen)
    ∧ ∀ (table : List CollaborationRow) (problemId now : ℤ),
        List.Sorted lastSeenGE (queryCollaboration table problemId now) := by
  constructor
  · intro table problemId now usersResult e he
    rcases last_seen_of_mem_fetch (queryCollaboration table problemId now)
        usersResult e he with ⟨r, hr, hls⟩
    rcases mem_queryCollaboration table problemId now r hr with ⟨_, hfresh, _⟩
    exact hls ▸ hfresh
  · intro table problemId now
    exact List.sorted_insertionSort lastSeenGE _

/-- Witness for `stale_rows_excluded_and_rows_desc` at a one-row table. -/
theorem stale_rows_excluded_and_rows_desc_witness :
    (100 : ℤ) - 30000 <
      (toEditor
        { id := 1, problem_id := 1, user_id := "u1", field_name := "solution",
          cursor_position := 0, selection_start := none, selection_end := none,
          last_seen := 100 } none).last_seen :=
  stale_rows_excluded_and_rows_desc.1
    [{ id := 1, problem_id := 1, user_id := "u1", field_name := "solution",
       cursor_position := 0, selection_start := none, selection_end := none,
       last_seen := 100 }] 1 100 (.error ())
    (toEditor
      { id := 1, problem_id := 1, user_id := "u1", field_name := "solution",
        cursor_position := 0, selection_start := none, selection_end := none,
        last_seen := 100 } none)
    (by decide)

/-- C8: `fetchActiveEditors` is fail-soft — a failed collaboration query
yields the empty roster, and a failed users query yields the
staleness-filtered rows with `users: null` instead of a failure. -/
theorem fetch_active_editors_fail_soft :
    (∀ usersResult : Except Unit (List UserRow),
        fetchActiveEditors (.error ()) usersResult = [])
    ∧ (∀ collaborationData : List CollaborationRow,
        fetchActiveEditors (.ok collaborationData) (.error ()) =
          collaborationData.map (fun e => toEditor e none))
    ∧ ∀ (table : List CollaborationRow) (problemId now : ℤ),
        fetchActiveEditorsAt table problemId now (.error ()) =
          (queryCollaboration table problemId now).map (fun e => toEditor e none) := by
  refine ⟨fun usersResult => rfl, fun collaborationData => ?_, fun table problemId now => ?_⟩
  · cases collaborationData with
    | nil => simp [fetchActiveEditors]
    | cons r rs => simp [fetchActiveEditors]
  · cases hq : queryCollaboration table problemId now with
    | nil => simp [fetchActiveEditorsAt, fetchActiveEditors, hq]
    | cons r rs => simp [fetchActiveEditorsAt, fetchActiveEditors, hq]

/-- C1 counterexample: when the batched profile lookup fails,
`fetchActiveEditors` returns the filtered rows *without* the per-user
collapse, so a fetch can return two records for the same `userId`.  Two
fresh rows for user `u1` (fields `solution` and `answer`) both survive the
staleness filter, and the returned roster holds both. -/
theorem roster_duplicate_user_on_profile_failure :
    (fetchActiveEditorsAt
        [{ id := 1, problem_id := 1, user_id := "u1", field_name := "solution",
           cursor_position := 0, selection_start := none, selection_end := none,
           last_seen := 100 },
         { id := 2, problem_id := 1, user_id := "u1", field_name := "answer",
           cursor_position := 0, selection_start := none, selection_end := none,
           last_seen := 50 }] 1 100 (.error ())).map (fun e => e.user_id) =
      ["u1", "u1"]
    ∧ ¬ ((fetchActiveEditorsAt
        [{ id := 1, problem_id := 1, user_id := "u1", field_name := "solution",
           cursor_position := 0, selection_start := none, selection_end := none,
           last_seen := 100 },
         { id := 2, problem_id := 1, user_id := "u1", field_name := "answer",
           cursor_position := 0, selection_start := none, selection_end := none,
           last_seen := 50 }] 1 100 (.error ())).map (fun e => e.user_id)).Nodup := by
  decide

/-- C1 (amended): on every fetch whose profile lookup succeeds, the roster
contains at most one record per `userId`; when exactly two records for a
user survive the staleness filter, the one kept is the one with the
strictly greater `last_seen`, and the entry with equal or lesser
`last_seen` is discarded. -/
theorem roster_one_record_per_user
    (table : List CollaborationRow) (problemId now : ℤ)
    (usersData : List UserRow) (u : String) (r1 r2 : CollaborationEditor)
    (hfilter : (editorsWithUsers (queryCollaboration table problemId now)
        usersData).filter (fun e => e.user_id = u) = [r1, r2]) :
    ((fetchActiveEditorsAt table problemId now (.ok usersData)).map
        (fun e => e.user_id)).Nodup
    ∧ (if r1.last_seen < r2.last_seen then r2 else r1) ∈
        fetchActiveEditorsAt table problemId now (.ok usersData)
    ∧ ∀ e ∈ fetchActiveEditorsAt table problemId now (.ok usersData),
        e.user_id = u → e = if r1.last_seen < r2.last_seen then r2 else r1 := by
  have hqne : (queryCollaboration table problemId now).isEmpty = false := by
    cases hq : queryCollaboration table problemId now with
    | nil => rw [hq] at hfilter; simp [editorsWithUsers] at hfilter
    | cons r rs => simp
  have hroster : fetchActiveEditorsAt table problemId now (.ok usersData) =
      (reduceEditors (editorsWithUsers (queryCollaboration table problemId now)
        usersData)).map Prod.snd := by
    simp [fetchActiveEditorsAt, fetchActiveEditors, hqne]
  have hkeyinv : ∀ p ∈ reduceEditors (editorsWithUsers
      (queryCollaboration table problemId now) usersData), p.1 = p.2.user_id :=
    fun p hp => key_eq_userId_of_mem_reduce _ [] (by simp) p hp
  have hnodupkeys : (mapKeys (reduceEditors (editorsWithUsers
      (queryCollaboration table problemId now) usersData))).Nodup :=
    nodup_keys_foldl_reduceStep _ [] (by simp [mapKeys])
  have hget : mapGet (reduceEditors (editorsWithUsers
      (queryCollaboration table problemId now) usersData)) u =
      some (if r1.last_seen < r2.last_seen then r2 else r1) := by
    have h := mapGet_foldl_reduceStep
      (editorsWithUsers (queryCollaboration table problemId now) usersData) [] u
    rw [hfilter] at h
    by_cases hlt : r1.last_seen < r2.last_seen
    · simpa [reduceEditors, pickLatest, mapGet, hlt] using h
    · simpa [reduceEditors, pickLatest, mapGet, hlt] using h
  refine ⟨?_, ?_, ?_⟩
  · have h1 : (fetchActiveEditorsAt table problemId now (.ok usersData)).map
        (fun e => e.user_id) = mapKeys (reduceEditors (editorsWithUsers
        (queryCollaboration table problemId now) usersData)) := by
      rw [hroster, List.map_map]
      exact List.map_congr_left (fun p hp => (hkeyinv p hp).symm)
    rw [h1]
    exact hnodupkeys
  · rw [hroster]
    exact List.mem_map.mpr ⟨(u, if r1.last_seen < r2.last_seen then r2 else r1),
      mapGet_mem _ _ _ hget, rfl⟩
  · intro e he hu
    rw [hroster] at he
    rcases List.mem_map.mp he with ⟨p, hp, hpe⟩
    have hpu : p.1 = u := by rw [hkeyinv p hp, hpe, hu]
    have hpair : (u, e) ∈ reduceEditors (editorsWithUsers
        (queryCollaboration table problemId now) usersData) := by
      have : p = (u, e) := by
        cases p with
        | mk a b =>
            simp only at hpu hpe
            rw [hpu, hpe]
      exact this ▸ hp
    have := mapGet_of_mem_nodup _ _ _ hpair hnodupkeys
    rw [hget] at this
    exact (Option.some.injEq _ _ ▸ this).symm

/-- Witness for `roster_one_record_per_user`: two surviving rows for `u1`
with `last_seen` 100 and 50; the kept record is the 100 one. -/
theorem roster_one_record_per_user_witness :
    (if (toEditor
          { id := 1, problem_id := 1, user_id := "u1", field_name := "solution",
            cursor_position := 0, selection_start := none, selection_end := none,
            last_seen := 100 } none).last_seen <
        (toEditor
          { id := 2, problem_id := 1, user_id := "u1", field_name := "answer",
            cursor_position := 0, selection_start := none, selection_end := none,
            last_seen := 50 } none).last_seen then
      toEditor
        { id := 2, problem_id := 1, user_id := "u1", field_name := "answer",
          cursor_position := 0, selection_start := none, selection_end := none,
          last_seen := 50 } none
    else
      toEditor
        { id := 1, problem_id := 1, user_id := "u1", field_name := "solution",
          cursor_position := 0, selection_start := none, selection_end := none,
          last_seen := 100 } none) ∈
      fetchActiveEditorsAt
        [{ id := 1, problem_id := 1, user_id := "u1", field_name := "solution",
           cursor_position := 0, selection_start := none, selection_end := none,
           last_seen := 100 },
         { id := 2, problem_id := 1, user_id := "u1", field_name := "answer",
           cursor_position := 0, selection_start := none, selection_end := none,
           last_seen := 50 }] 1 100 (.ok []) :=
  (roster_one_record_per_user
    [{ id := 1, problem_id := 1, user_id := "u1", field_name := "solution",
       cursor_position := 0, selection_start := none, selection_end := none,
       last_seen := 100 },
     { id := 2, problem_id := 1, user_id := "u1", field_name := "answer",
       cursor_position := 0, selection_start := none, selection_end := none,
       last_seen := 50 }] 1 100 [] "u1"
    (toEditor
      { id := 1, problem_id := 1, user_id := "u1", field_name := "solution",
        cursor_position := 0, selection_start := none, selection_end := none,
        last_seen := 100 } none)
    (toEditor
      { id := 2, problem_id := 1, user_id := "u1", field_name := "answer",
        cursor_position := 0, selection_start := none, selection_end := none,
        last_seen := 50 } none)
    (by decide)).2.1

/-- C3: a cached channel found `closed` or `errored` is never used for the
send — `broadcastFieldUpdate` evicts the stale entry, creates, subscribes
and caches a fresh channel (and waits the settle delay) before sending, and
the channel sent on is the fresh one, distinct from the stale one. -/
theorem closed_channel_never_reused
    (env : BroadcastEnv) (problemId : ℤ) (fieldName content userId : String)
    (nowTs : ℤ) (channel : Channel)
    (hcached : mapGet env.cache problemId = some channel)
    (hstale : channel.state = .closed ∨ channel.state = .errored)
    (hfresh : ∀ p ∈ env.cache, p.2.id < env.nextId) :
    broadcastFieldUpdate env problemId fieldName content userId nowTs =
      ({ cache := mapSet (mapDel env.cache problemId) problemId
           { id := env.nextId, state := .joined },
         nextId := env.nextId + 1 },
        [.removedChannel channel,
         .createdChannel { id := env.nextId, state := .joined }
           (broadcastChannelName problemId),
         .subscribedChannel { id := env.nextId, state := .joined },
         .cachedChannel problemId { id := env.nextId, state := .joined },
         .settleWait,
         .sent { id := env.nextId, state := .joined } "field_update"
           { field_name := fieldName, content := content, user_id := userId,
             timestamp := nowTs }])
    ∧ channel ≠ { id := env.nextId, state := .joined }
    ∧ mapGet (mapSet (mapDel env.cache problemId) problemId
        { id := env.nextId, state := .joined }) problemId =
        some { id := env.nextId, state := .joined } := by
  refine ⟨?_, ?_, mapGet_mapSet_self _ _ _⟩
  · rcases hstale with h | h
    · simp [broadcastFieldUpdate, hcached, h]
    · simp [broadcastFieldUpdate, hcached, h]
  · intro hc
    have hlt := hfresh (problemId, channel) (mapGet_mem _ _ _ hcached)
    rw [hc] at hlt
    simp at hlt

/-- Witness for `closed_channel_never_reused`: a cache holding a closed
channel of id 0 with creation counter 1. -/
theorem closed_channel_never_reused_witness :
    broadcastFieldUpdate
        { cache := [(1, { id := 0, state := .closed })], nextId := 1 }
        1 "solution" "x" "u1" 0 =
      ({ cache := mapSet
           (mapDel [(1, ({ id := 0, state := .closed } : Channel))] 1) 1
           { id := 1, state := .joined },
         nextId := 2 },
        [.removedChannel { id := 0, state := .closed },
         .createdChannel { id := 1, state := .joined } (broadcastChannelName 1),
         .subscribedChannel { id := 1, state := .joined },
         .cachedChannel 1 { id := 1, state := .joined },
         .settleWait,
         .sent { id := 1, state := .joined } "field_update"
           { field_name := "solution", content := "x", user_id := "u1",
             timestamp := 0 }])
    ∧ ({ id := 0, state := .closed } : Channel) ≠ { id := 1, state := .joined }
    ∧ mapGet (mapSet
        (mapDel [(1, ({ id := 0, state := .closed } : Channel))] 1) 1
        { id := 1, state := .joined }) 1 =
        some { id := 1, state := .joined } :=
  closed_channel_never_reused
    { cache := [(1, { id := 0, state := .closed })], nextId := 1 }
    1 "solution" "x" "u1" 0 { id := 0, state := .closed }
    (by decide) (by decide) (by decide)

/-- The event trace of `broadcastFieldUpdate` takes one of four shapes,
matching the four paths through the function. -/
theorem broadcast_trace_cases (env : BroadcastEnv) (problemId : ℤ)
    (fieldName content userId : String) (nowTs : ℤ) :
    (∃ ch, (broadcastFieldUpdate env problemId fieldName content userId nowTs).2 =
        [.createdChannel ch (broadcastChannelName problemId),
         .subscribedChannel ch, .cachedChannel problemId ch, .settleWait,
         .sent ch "field_update"
           { field_name := fieldName, content := content, user_id := userId,
             timestamp := nowTs }])
    ∨ (∃ old ch,
        (broadcastFieldUpdate env problemId fieldName content userId nowTs).2 =
        [.removedChannel old,
         .createdChannel ch (broadcastChannelName problemId),
         .subscribedChannel ch, .cachedChannel problemId ch, .settleWait,
         .sent ch "field_update"
           { field_name := fieldName, content := content, user_id := userId,
             timestamp := nowTs }])
    ∨ (∃ ch, (broadcastFieldUpdate env problemId fieldName content userId nowTs).2 =
        [.settleWait,
         .sent ch "field_update"
           { field_name := fieldName, content := content, user_id := userId,
             timestamp := nowTs }])
    ∨ (∃ ch, (broadcastFieldUpdate env problemId fieldName content userId nowTs).2 =
        [.sent ch "field_update"
           { field_name := fieldName, content := content, user_id := userId,
             timestamp := nowTs }]) := by
  cases hc : mapGet env.cache problemId with
  | none =>
      exact Or.inl ⟨{ id := env.nextId, state := .joined },
        by simp [broadcastFieldUpdate, hc]⟩
  | some channel =>
      by_cases hstale : channel.state = .closed ∨ channel.state = .errored
      · exact Or.inr (Or.inl ⟨channel, { id := env.nextId, state := .joined },
          by simp [broadcastFieldUpdate, hc, hstale]⟩)
      · by_cases hjs : channel.state ≠ .joined ∧ channel.state ≠ .subscribed
        · exact Or.inr (Or.inr (Or.inl ⟨channel,
            by simp [broadcastFieldUpdate, hc, hstale, hjs]⟩))
        · exact Or.inr (Or.inr (Or.inr ⟨channel,
            by simp [broadcastFieldUpdate, hc, hstale, hjs]⟩))

/-- The event trace of `subscribeToFieldUpdates` takes one of three shapes,
matching the paths through the function. -/
theorem subscribe_trace_cases (env : BroadcastEnv) (problemId : ℤ) :
    (∃ ch, (subscribeToFieldUpdates env problemId).2 =
        [.listenerAttached ch "field_update"])
    ∨ (∃ old ch, (subscribeToFieldUpdates env problemId).2 =
        [.removedChannel old,
         .createdChannel ch (broadcastChannelName problemId),
         .cachedChannel problemId ch, .listenerAttached ch "field_update",
         .subscribedChannel ch])
    ∨ (∃ ch, (subscribeToFieldUpdates env problemId).2 =
        [.listenerAttached ch "field_update", .subscribedChannel ch])
    ∨ (∃ ch, (subscribeToFieldUpdates env problemId).2 =
        [.createdChannel ch (broadcastChannelName problemId),
         .cachedChannel problemId ch, .listenerAttached ch "field_update",
         .subscribedChannel ch]) := by
  cases hc : mapGet env.cache problemId with
  | none =>
      exact Or.inr (Or.inr (Or.inr ⟨{ id := env.nextId, state := .joining },
        by simp [subscribeToFieldUpdates, hc]⟩))
  | some channel =>
      by_cases hup : channel.state = .joined ∨ channel.state = .subscribed ∨
          channel.state = .joining
      · exact Or.inl ⟨channel, by simp [subscribeToFieldUpdates, hc, hup]⟩
      · by_cases hstale : channel.state = .closed ∨ channel.state = .errored
        · exact Or.inr (Or.inl ⟨channel, { id := env.nextId, state := .joining },
            by simp [subscribeToFieldUpdates, hc, hup, hstale]⟩)
        · exact Or.inr (Or.inr (Or.inl ⟨channel,
            by simp [subscribeToFieldUpdates, hc, hup, hstale]⟩))

/-- C4 counterexample: the channels are named with a `problem:` prefix, not
`document:`.  A broadcast for problem 1 on an empty cache creates and sends
on the channel named `problem:1:updates`, which is not
`document:1:updates`; the presence channel is `problem:1`, not
`document:1`. -/
theorem channel_names_use_problem_prefix :
    (broadcastFieldUpdate { cache := [], nextId := 0 } 1 "solution" "x" "u1" 0).2 =
      [.createdChannel { id := 0, state := .joined } "problem:1:updates",
       .subscribedChannel { id := 0, state := .joined },
       .cachedChannel 1 { id := 0, state := .joined },
       .settleWait,
       .sent { id := 0, state := .joined } "field_update"
         { field_name := "solution", content := "x", user_id := "u1",
           timestamp := 0 }]
    ∧ ("problem:1:updates" : String) ≠ "document:1:updates"
    ∧ (subscribeToCollaboration 1).channelName = "problem:1"
    ∧ ("problem:1" : String) ≠ "document:1" := by
  decide

/-- C4 (amended): for every document id the field-update broadcast message
`{field_name, content, user_id, timestamp}` is sent, and listened for, with
event tag `field_update` on the channel named `` `problem:${id}:updates` ``,
the presence-notification channel is named `` `problem:${id}` ``, and the
two channel names never coincide. -/
theorem broadcast_envelope_and_channel_names :
    (∀ (env : BroadcastEnv) (problemId : ℤ)
        (fieldName content userId : String) (nowTs : ℤ),
        ∃ ch, BEvent.sent ch "field_update"
          { field_name := fieldName, content := content, user_id := userId,
            timestamp := nowTs } ∈
          (broadcastFieldUpdate env problemId fieldName content userId nowTs).2)
    ∧ (∀ (env : BroadcastEnv) (problemId : ℤ)
        (fieldName content userId : String) (nowTs : ℤ)
        (ch : Channel) (e : String) (p : FieldUpdate),
        BEvent.sent ch e p ∈
            (broadcastFieldUpdate env problemId fieldName content userId nowTs).2 →
          e = "field_update" ∧
            p = { field_name := fieldName, content := content,
                  user_id := userId, timestamp := nowTs })
    ∧ (∀ (env : BroadcastEnv) (problemId : ℤ)
        (fieldName content userId : String) (nowTs : ℤ)
        (ch : Channel) (name : String),
        BEvent.createdChannel ch name ∈
            (broadcastFieldUpdate env problemId fieldName content userId nowTs).2 →
          name = broadcastChannelName problemId)
    ∧ (∀ (env : BroadcastEnv) (problemId : ℤ) (ch : Channel) (e : String),
        BEvent.listenerAttached ch e ∈ (subscribeToFieldUpdates env problemId).2 →
          e = "field_update")
    ∧ (∀ (env : BroadcastEnv) (problemId : ℤ) (ch : Channel) (name : String),
        BEvent.createdChannel ch name ∈ (subscribeToFieldUpdates env problemId).2 →
          name = broadcastChannelName problemId)
    ∧ (∀ problemId : ℤ,
        (subscribeToCollaboration problemId).channelName = presenceChannelName problemId)
    ∧ ∀ problemId : ℤ, broadcastChannelName problemId ≠ presenceChannelName problemId := by
  refine ⟨?_, ?_, ?_, ?_, ?_, fun problemId => rfl, ?_⟩
  · intro env problemId fieldName content userId nowTs
    rcases broadcast_trace_cases env problemId fieldName content userId nowTs with
      ⟨ch, h⟩ | ⟨old, ch, h⟩ | ⟨ch, h⟩ | ⟨ch, h⟩ <;>
      exact ⟨ch, by simp [h]⟩
  · intro env problemId fieldName content userId nowTs ch e p hmem
    rcases broadcast_trace_cases env problemId fieldName content userId nowTs with
      ⟨ch', h⟩ | ⟨old, ch', h⟩ | ⟨ch', h⟩ | ⟨ch', h⟩ <;>
      · rw [h] at hmem
        simp at hmem
        exact ⟨hmem.2.1, hmem.2.2⟩
  · intro env problemId fieldName content userId nowTs ch name hmem
    rcases broadcast_trace_cases env problemId fieldName content userId nowTs with
      ⟨ch', h⟩ | ⟨old, ch', h⟩ | ⟨ch', h⟩ | ⟨ch', h⟩ <;>
      · rw [h] at hmem
        simp at hmem
        try exact hmem.2
  · intro env problemId ch e hmem
    rcases subscribe_trace_cases env problemId with
      ⟨ch', h⟩ | ⟨old, ch', h⟩ | ⟨ch', h⟩ | ⟨ch', h⟩ <;>
      · rw [h] at hmem
        simp at hmem
        try exact hmem.2
  · intro env problemId ch name hmem
    rcases subscribe_trace_cases env problemId with
      ⟨ch', h⟩ | ⟨old, ch', h⟩ | ⟨ch', h⟩ | ⟨ch', h⟩ <;>
      · rw [h] at hmem
        simp at hmem
        try exact hmem.2
  · intro problemId h
    have hlen := congrArg String.length h
    simp [broadcastChannelName, presenceChannelName, String.length_append] at hlen
    exact absurd hlen (by decide)

/-- Witness for `broadcast_envelope_and_channel_names`: the channel created
by a broadcast for problem 1 on an empty cache is named by
`broadcastChannelName`. -/
theorem broadcast_envelope_and_channel_names_witness :
    ("problem:1:updates" : String) = broadcastChannelName 1 :=
  broadcast_envelope_and_channel_names.2.2.1 { cache := [], nextId := 0 } 1
    "solution" "x" "u1" 0 { id := 0, state := .joined } "problem:1:updates"
    (by decide)

/-- C9 counterexample: the code has no per-document creation guard.  In the
legal schedule where both calls run their cache lookup before either caches
(both looking up before the first `await channel.subscribe()` resolves),
each call creates its own channel: two channels are created, not exactly
one. -/
theorem broadcast_race_creates_two_channels :
    ((raceRun 1
        { field_name := "solution", content := "x", user_id := "u1",
          timestamp := 0 }
        { field_name := "solution", content := "y", user_id := "u2",
          timestamp := 1 }).1.created).length = 2
    ∧ ¬ ((raceRun 1
        { field_name := "solution", content := "x", user_id := "u1",
          timestamp := 0 }
        { field_name := "solution", content := "y", user_id := "u2",
          timestamp := 1 }).1.created).length = 1 := by
  decide

/-- C9 (amended): the create-and-subscribe sequence is not serialized per
documentId.  When two broadcast calls interleave so that both observe no
cached channel, each creates and subscribes its own channel; both send on
their own channel, and the channel cached second (id 1) overwrites the one
cached first (id 0) in the shared cache. -/
theorem broadcast_race_unserialized (problemId : ℤ) (msgA msgB : FieldUpdate) :
    (raceRun problemId msgA msgB).1.created =
      [{ id := 0, state := .joined }, { id := 1, state := .joined }]
    ∧ mapGet (raceRun problemId msgA msgB).1.cache problemId =
        some { id := 1, state := .joined }
    ∧ (raceRun problemId msgA msgB).1.sent =
        [({ id := 0, state := .joined }, msgA),
         ({ id := 1, state := .joined }, msgB)]
    ∧ (raceRun problemId msgA msgB).2.1 = .done { id := 0, state := .joined }
    ∧ (raceRun problemId msgA msgB).2.2 = .done { id := 1, state := .joined } := by
  simp [raceRun, raceCallStep, mapGet, mapSet, mapDel]
